import Mathlib

/-!
Verification development for the repository's two applications (Sales
Dashboard, `src/app.py`; Expense Tracker, `src/expense_tracker/`).
The Python code is shallowly embedded: pandas DataFrames become lists of
records, floats become rationals, regular expressions become a small
syntax tree with an executable matcher, and the Streamlit render cycle
becomes an explicit state-transition function.
-/

/-! ## Python string primitives (str.lower, str.strip, re \s, str.split) -/

/-- Whitespace as Python's `\s` and `str.strip`/`str.split` see it on the
ASCII inputs in play: space, tab, newline, carriage return, vertical tab,
form feed. -/
def pySpace (c : Char) : Bool :=
  c = ' ' || c = '\t' || c = '\n' || c = '\r' || c = Char.ofNat 11 || c = Char.ofNat 12

/-- ASCII lowering, as `str.lower` acts on the ASCII data in play. -/
def pyLowerChar (c : Char) : Char :=
  if 'A' ≤ c && c ≤ 'Z' then Char.ofNat (c.toNat + 32) else c

/-- `str.lower`. -/
def pyLower (s : String) : String := String.mk (s.toList.map pyLowerChar)

/-- `str.strip` on a character list. -/
def pyStripList (l : List Char) : List Char :=
  ((l.dropWhile pySpace).reverse.dropWhile pySpace).reverse

/-- `str.strip`. -/
def pyStrip (s : String) : String := String.mk (pyStripList s.toList)

/-- Helper for `re.sub(r"\s+", " ", ·)`: the flag records whether the
previous character was whitespace, so each whitespace run emits one space. -/
def collapseWsGo (prevSpace : Bool) : List Char → List Char
  | [] => []
  | c :: rest =>
    if pySpace c then
      if prevSpace then collapseWsGo true rest else ' ' :: collapseWsGo true rest
    else c :: collapseWsGo false rest

/-- `re.sub(r"\s+", " ", ·)`: every maximal whitespace run becomes one space. -/
def collapseWsList (l : List Char) : List Char := collapseWsGo false l

/-- Helper for `str.split()`: accumulates the current token reversed. -/
def pySplitGo (cur : List Char) : List Char → List String
  | [] => if cur.isEmpty then [] else [String.mk cur.reverse]
  | c :: rest =>
    if pySpace c then
      if cur.isEmpty then pySplitGo [] rest
      else String.mk cur.reverse :: pySplitGo [] rest
    else pySplitGo (c :: cur) rest

/-- `str.split()` with no argument: split on whitespace runs, no empty
tokens. -/
def pySplitWs (l : List Char) : List String := pySplitGo [] l

/-- Python's `needle in haystack` on lists of characters: prefix test. -/
def isPrefixL : List Char → List Char → Bool
  | [], _ => true
  | _ :: _, [] => false
  | a :: as, b :: bs => a == b && isPrefixL as bs

/-- Python's `needle in haystack` on lists of characters. -/
def isSubstrL (needle : List Char) : List Char → Bool
  | [] => isPrefixL needle []
  | b :: bs => isPrefixL needle (b :: bs) || isSubstrL needle bs

/-- Python's substring test `sub in hay`. -/
def containsSub (hay sub : String) : Bool := isSubstrL sub.toList hay.toList

/-- Whether any of the given substrings occurs in `hay` (an `or`-chain of
Python `in` tests). -/
def containsAny (hay : String) (subs : List String) : Bool :=
  subs.any fun sub => containsSub hay sub

/-! ## Text normalization (`src/expense_tracker/utils/rules.py`, `normalize_text`)

The third-party text-transliteration utility (`unidecode`) is an external
dependency excluded from the repository's scope (spec §1); on the
ASCII-range inputs exercised here it is the identity, and it is embedded as
the identity. -/

/-- Modelled from the spec: §4.3 "transliterate to a plain ASCII-range
representation" names the third-party transliteration utility, whose code is
not part of this repository; on ASCII input it is the identity and it is
embedded as such. -/
def unidecodeStr (s : String) : String := s

/-- `normalize_text` of `rules.py`: `None` becomes `""`; otherwise
transliterate, lowercase, strip, collapse internal whitespace runs. -/
def normalize_text (t : Option String) : String :=
  match t with
  | none => ""
  | some s =>
    String.mk (collapseWsList (pyStripList ((unidecodeStr s).toList.map pyLowerChar)))

/-! ## Regular expressions

The engine compiles each rule pattern with `re.compile(pattern,
flags=re.IGNORECASE)` and matches with `pattern.search(text)`. The patterns
in play use only: literal characters, the escapes `\b` (word boundary),
`\s` (whitespace class) and escaped punctuation, the postfix operators `*`
(only over a single-character atom, as in `\s*`) and `?`, and the
alternation `|`. `Rx` is that fragment; `mtch` is a backtracking matcher
whose boolean result is match existence, which is what `search`'s
truthiness gives the engine. -/

/-- Regular-expression syntax for the fragment the rule patterns use. -/
inductive Rx where
  | eps : Rx
  | ch : (Char → Bool) → Rx
  | wb : Rx
  | seq : Rx → Rx → Rx
  | alt : Rx → Rx → Rx
  | opt : Rx → Rx
  | star : (Char → Bool) → Rx

/-- Python `\w` for the ASCII data in play: letters, digits, underscore. -/
def isWordChar (c : Char) : Bool := c.isAlphanum || c = '_'

/-- Word-boundary test between the previous character (none at the string
edge) and the rest of the input. -/
def atBoundary (prev : Option Char) (s : List Char) : Bool :=
  let pw := match prev with | none => false | some c => isWordChar c
  let nw := match s with | [] => false | a :: _ => isWordChar a
  pw != nw

/-- Matcher for `star p` with continuation `k`: consume any number of
characters satisfying `p`. -/
def mstar (p : Char → Bool) : Option Char → List Char → (Option Char → List Char → Bool) → Bool
  | prev, [], k => k prev []
  | prev, a :: rest, k =>
    k prev (a :: rest) || (p a && mstar p (some a) rest k)

/-- Backtracking matcher: does some way of matching `r` starting here make
the continuation `k` succeed? `prev` is the character before the current
position (for `\b`). -/
def mtch : Rx → Option Char → List Char → (Option Char → List Char → Bool) → Bool
  | .eps, prev, s, k => k prev s
  | .ch _, _, [], _ => false
  | .ch p, _, a :: rest, k => p a && k (some a) rest
  | .wb, prev, s, k => atBoundary prev s && k prev s
  | .seq r1 r2, prev, s, k => mtch r1 prev s fun p2 s2 => mtch r2 p2 s2 k
  | .alt r1 r2, prev, s, k => mtch r1 prev s k || mtch r2 prev s k
  | .opt r, prev, s, k => mtch r prev s k || k prev s
  | .star p, prev, s, k => mstar p prev s k

/-- Try a match at every start position, as `re.search` does. -/
def searchFrom (r : Rx) : Option Char → List Char → Bool
  | prev, s =>
    mtch r prev s (fun _ _ => true) ||
      match s with
      | [] => false
      | a :: rest => searchFrom r (some a) rest

/-- `pattern.search(text)` as a boolean: does the pattern match anywhere? -/
def rxSearch (r : Rx) (s : String) : Bool := searchFrom r none s.toList

/-- A literal character under `re.IGNORECASE`. -/
def litI (c : Char) : Rx := .ch fun a => pyLowerChar a == pyLowerChar c

/-- Characters that are regex operators or unsupported syntax when they
appear unescaped; a pattern using unsupported syntax fails to compile in
this model (`_compile` skips patterns that fail to compile either way). -/
def rxSpecial (c : Char) : Bool :=
  c = '*' || c = '?' || c = '|' || c = '(' || c = ')' || c = '[' || c = ']' ||
  c = Char.ofNat 123 || c = Char.ofNat 125 || c = '+' || c = '.' || c = '^' || c = '$'

/-- Parse one atom: an escape (`\b`, `\s`, escaped punctuation) or a plain
literal character. Returns the atom and the rest; `none` on unsupported
syntax. -/
def parseAtom : List Char → Option (Rx × List Char)
  | [] => none
  | c :: rest =>
    if c = '\\' then
      match rest with
      | [] => none
      | e :: rest2 =>
        if e = 'b' then some (.wb, rest2)
        else if e = 's' then some (.ch pySpace, rest2)
        else if e.isAlphanum then none
        else some (litI e, rest2)
    else if rxSpecial c then none
    else some (litI c, rest)

/-- Apply a postfix operator if one follows the atom. `*` is supported only
over a single-character atom (the only form the source patterns use). -/
def parsePostfix (a : Rx) : List Char → Option (Rx × List Char)
  | c :: rest =>
    if c = '*' then
      match a with
      | .ch p => some (.star p, rest)
      | _ => none
    else if c = '?' then some (.opt a, rest)
    else some (a, c :: rest)
  | [] => some (a, [])

/-- Parse a concatenation, stopping at `|` or the end. `fuel` bounds the
recursion (each atom consumes at least one character). -/
def parseSeq (fuel : Nat) (s : List Char) : Option (Rx × List Char) :=
  match fuel with
  | 0 => none
  | fuel + 1 =>
    match s with
    | [] => some (.eps, [])
    | c :: _ =>
      if c = '|' then some (.eps, s)
      else
        match parseAtom s with
        | none => none
        | some (a, rest) =>
          match parsePostfix a rest with
          | none => none
          | some (a2, rest2) =>
            match parseSeq fuel rest2 with
            | none => none
            | some (b, rest3) => some (.seq a2 b, rest3)

/-- Parse an alternation (lowest precedence, as in `\bamzn|amazon\b`). -/
def parseAlt (fuel : Nat) (s : List Char) : Option (Rx × List Char) :=
  match fuel with
  | 0 => none
  | fuel + 1 =>
    match parseSeq (fuel + 1) s with
    | none => none
    | some (a, rest) =>
      match rest with
      | c :: rest2 =>
        if c = '|' then
          match parseAlt fuel rest2 with
          | none => none
          | some (b, rest3) => some (.alt a b, rest3)
        else some (a, rest)
      | [] => some (a, [])

/-- `re.compile(pattern, flags=re.IGNORECASE)` for the supported fragment:
`some` on success, `none` when compilation fails (then `_compile` skips the
pattern). -/
def reCompile (pat : String) : Option Rx :=
  match parseAlt (pat.length + 1) pat.toList with
  | some (r, []) => some r
  | _ => none

/-! ## Rule storage (`src/expense_tracker/utils/rules.py`)

Python `dict`s keyed by category are embedded as association lists in
insertion order: updating an existing key replaces its value in place,
a new key is appended — exactly `dict.__setitem__`/`dict.update`. -/

/-- `DEFAULT_RULES` of `rules.py`: the built-in category → patterns table,
with the exact pattern source strings. -/
def DEFAULT_RULES : List (String × List String) :=
  [("Groceries",
    ["\\btrader\\s*joe'?s?\\b", "\\bsafeway\\b", "\\bwhole\\s*foods\\b",
     "\\bcostco\\b", "\\bheb\\b", "\\bwalmart\\b", "\\btarget\\b",
     "\\binstacart\\b"]),
   ("Restaurants",
    ["\\bubereats\\b", "\\bdoordash\\b", "\\bgrubhub\\b", "\\bstarbucks\\b",
     "\\bmcdonald'?s?\\b", "\\bchipotle\\b", "\\btaco\\s*bell\\b",
     "\\bsubway\\b", "\\bpizza\\b", "\\bkfc\\b", "\\bpanda\\s*express\\b"]),
   ("Transport",
    ["\\buber\\b", "\\blyft\\b", "\\bchevron\\b", "\\bshell\\b",
     "\\bexxon\\b", "\\bbp\\b", "\\btesla\\b", "\\bvalero\\b",
     "\\bstation\\s*gas\\b", "\\bgas\\b", "\\bmetro\\b",
     "\\bsubway\\s*station\\b"]),
   ("Housing",
    ["\\brent\\b", "\\bmortgage\\b", "\\blandlord\\b", "\\bapartment\\b",
     "\\bproperty\\s*management\\b", "\\bhoa\\b"]),
   ("Utilities",
    ["\\belectric\\b", "\\bwater\\b", "\\bgas\\b", "\\binternet\\b",
     "\\bcomcast\\b", "\\bat\\&t\\b", "\\bverizon\\b", "\\bt-mobile\\b",
     "\\bspectrum\\b"]),
   ("Entertainment",
    ["\\bnetflix\\b", "\\bspotify\\b", "\\bhulu\\b", "\\bdisney\\+?\\b",
     "\\bprime\\s*video\\b", "\\bxbox\\b", "\\bplaystation\\b",
     "\\bsteam\\b"]),
   ("Shopping",
    ["\\bamzn|amazon\\b", "\\bebay\\b", "\\betsy\\b", "\\bbest\\s*buy\\b",
     "\\bapple\\s*store\\b"]),
   ("Health",
    ["\\bcvs\\b", "\\bwalgreens\\b", "\\bpharmacy\\b", "\\bdoctor\\b",
     "\\bdentist\\b", "\\bclinic\\b", "\\boptical\\b"]),
   ("Travel",
    ["\\bairbnb\\b", "\\bbooking\\.com\\b", "\\bexpedia\\b", "\\bmarriott\\b",
     "\\bhilton\\b", "\\bdelta\\b", "\\bamerican\\s*airlines\\b",
     "\\bsouthwest\\b", "\\bunited\\b"]),
   ("Income",
    ["\\bpayroll\\b", "\\bsalary\\b", "\\bpaycheck\\b",
     "\\bdirect\\s*deposit\\b", "\\bvenmo\\s*cashout\\b",
     "\\bcash\\s*app\\s*cashout\\b", "\\bzelle\\s*in\\b",
     "\\binterest\\s*payment\\b"]),
   ("Fees",
    ["\\boverdraft\\b", "\\bmaintenance\\s*fee\\b", "\\bservice\\s*charge\\b",
     "\\batm\\s*fee\\b", "\\bwire\\s*fee\\b"])]

/-- Dictionary lookup `d.get(k)` on an insertion-ordered association list. -/
def alistLookup {α : Type} (m : List (String × α)) (k : String) : Option α :=
  (m.find? fun p => p.1 == k).map Prod.snd

/-- Dictionary write `d[k] = v`: replace the value at an existing key in
place, else append the new key at the end. -/
def alistUpdate {α : Type} : List (String × α) → String → α → List (String × α)
  | [], k, v => [(k, v)]
  | (k0, v0) :: rest, k, v =>
    if k0 == k then (k, v) :: rest else (k0, v0) :: alistUpdate rest k v

/-- `m.update(overlay)`: write every overlay entry into `m` in order. -/
def dictUpdate {α : Type} (m overlay : List (String × α)) : List (String × α) :=
  overlay.foldl (fun acc kv => alistUpdate acc kv.1 kv.2) m

/-- The state of the rules overlay file as `load_rules` can observe it:
absent, unreadable or malformed JSON, JSON that is not a dict, or a JSON
dict of category → pattern list entries. -/
inductive OverlayFile where
  | absent : OverlayFile
  | malformed : OverlayFile
  | nonDict : OverlayFile
  | dict : List (String × List String) → OverlayFile

/-- `RuleEngine.load_rules`: start from the defaults, then `update` with the
file's dict when the file exists and parses as a dict; a malformed or
unreadable file, or non-dict JSON, leaves the defaults alone. -/
def load_rules (f : OverlayFile) : List (String × List String) :=
  match f with
  | .dict entries => dictUpdate DEFAULT_RULES entries
  | _ => DEFAULT_RULES

/-- One compiled rule of `RuleEngine.compiled_rules`: the pattern's source
text (`re.Pattern.pattern`), the compiled regex, and the category. -/
structure CompiledRule where
  src : String
  rx : Rx
  category : String

/-- The sort relation of `_compile`: by length of the pattern's literal
source text, longest first (`key=lambda x: len(x[0].pattern), reverse=True`). -/
def ruleOrder (a b : CompiledRule) : Prop := b.src.length ≤ a.src.length

instance : DecidableRel ruleOrder := fun _ _ => Nat.decLe _ _

instance : IsTotal CompiledRule ruleOrder :=
  ⟨fun a b => Nat.le_total b.src.length a.src.length⟩

instance : IsTrans CompiledRule ruleOrder :=
  ⟨fun _ _ _ h1 h2 => Nat.le_trans h2 h1⟩

/-- `RuleEngine._compile`: compile every (category, pattern) pair in table
order, skip patterns that fail to compile, and stable-sort by source-text
length descending (Python `list.sort` is stable; so is insertion sort that
places an earlier element before later equals). -/
def compileRules (rules : List (String × List String)) : List CompiledRule :=
  let compiled := rules.flatMap fun cp =>
    cp.2.filterMap fun pat => (reCompile pat).map fun r => ⟨pat, r, cp.1⟩
  List.insertionSort ruleOrder compiled

/-- `RuleEngine`: the category → patterns table and the compiled rule list. -/
structure RuleEngine where
  rules : List (String × List String)
  compiled_rules : List CompiledRule

/-- `RuleEngine.__init__`: load defaults plus overlay, then compile. -/
def mkEngine (f : OverlayFile) : RuleEngine :=
  let rules := load_rules f
  ⟨rules, compileRules rules⟩

/-- `RuleEngine.save_rules`: the dict written to the overlay file — for each
category, only the patterns not among the defaults of that category; a
category with no such pattern is omitted. -/
def save_rules (rules : List (String × List String)) : List (String × List String) :=
  rules.filterMap fun cp =>
    let defaults := (alistLookup DEFAULT_RULES cp.1).getD []
    let extra := cp.2.filter fun p => !defaults.contains p
    if extra.isEmpty then none else some (cp.1, extra)

/-- `RuleEngine.add_rule`: trim both inputs; return unchanged if either is
empty; create the category key if new; append the pattern unless it is
already present; recompile (persistence of `save_rules rules` is a separate
effect on the overlay file). -/
def add_rule (e : RuleEngine) (category pattern : String) : RuleEngine :=
  let category := pyStrip category
  let pattern := pyStrip pattern
  if category = "" || pattern = "" then e
  else
    let rules0 :=
      if (alistLookup e.rules category).isSome then e.rules
      else e.rules ++ [(category, [])]
    let cur := (alistLookup rules0 category).getD []
    let rules1 :=
      if cur.contains pattern then rules0
      else alistUpdate rules0 category (cur ++ [pattern])
    ⟨rules1, compileRules rules1⟩

/-- `RuleEngine.categorize`: normalize the description; empty text matches
nothing; otherwise return the category of the first compiled rule whose
regex matches anywhere in the text. -/
def categorize (e : RuleEngine) (description : Option String) : Option String :=
  let text := normalize_text description
  if text = "" then none
  else (e.compiled_rules.find? fun c => rxSearch c.rx text).map CompiledRule.category

/-! ## Transaction ingestion & normalization (`src/expense_tracker/utils/io.py`)

A raw CSV as `pd.read_csv` hands it to `normalize_dataframe`: a header and
rows of cells; a `none` cell is a missing value (NaN). Numeric coercion
(`pd.to_numeric(…, errors="coerce")`) becomes a rational parser returning
`none` for non-numeric text; temporal coercion (`pd.to_datetime(…,
errors="coerce")`) becomes an ISO-date parser returning `none` for
unparseable text. Amounts are rationals (the floats in play are decimal). -/

/-- A raw dataframe: column names and rows of optional cells. -/
structure RawDF where
  header : List String
  rows : List (List (Option String))

def DATE_CANDIDATES : List String :=
  ["date", "transaction date", "posted date", "posting date", "trans date",
   "value date"]

def DESC_CANDIDATES : List String :=
  ["description", "details", "payee", "memo", "narrative"]

def AMOUNT_CANDIDATES : List String := ["amount", "transaction amount", "value"]

def DEBIT_CANDIDATES : List String := ["debit", "withdrawal"]

def CREDIT_CANDIDATES : List String := ["credit", "deposit"]

def TYPE_CANDIDATES : List String := ["type", "transaction type"]

def ACCOUNT_CANDIDATES : List String :=
  ["account name", "account", "account number", "card number"]

def CATEGORY_CANDIDATES : List String := ["category", "categorization"]

/-- The `lowered` dict of `_canonicalize_columns`: lowered-and-stripped
column name → original column name, later duplicates overwriting. -/
def loweredCols (header : List String) : List (String × String) :=
  header.foldl (fun acc c => alistUpdate acc (pyStrip (pyLower c)) c) []

/-- `pick`: the original name of the first candidate present among the
lowered column names. -/
def pickCol (header : List String) (candidates : List String) : Option String :=
  candidates.findSome? fun cand => alistLookup (loweredCols header) cand

/-- The resolved column map of `_canonicalize_columns`. -/
structure ColMap where
  date : Option String
  description : Option String
  amount : Option String
  debit : Option String
  credit : Option String
  type : Option String
  account : Option String
  category : Option String

/-- `_canonicalize_columns`. -/
def canonicalizeColumns (df : RawDF) : ColMap :=
  { date := pickCol df.header DATE_CANDIDATES
    description := pickCol df.header DESC_CANDIDATES
    amount := pickCol df.header AMOUNT_CANDIDATES
    debit := pickCol df.header DEBIT_CANDIDATES
    credit := pickCol df.header CREDIT_CANDIDATES
    type := pickCol df.header TYPE_CANDIDATES
    account := pickCol df.header ACCOUNT_CANDIDATES
    category := pickCol df.header CATEGORY_CANDIDATES }

/-- The cells of the named column, one per row (`none` when a row is short). -/
def getCol (df : RawDF) (name : String) : List (Option String) :=
  match df.header.findIdx? (fun c => c == name) with
  | none => df.rows.map fun _ => none
  | some i => df.rows.map fun r => (r.get? i).getD none

/-- `Series.astype(str)`: a missing value renders as the string "nan". -/
def cellToStr (c : Option String) : String := c.getD "nan"

def allDigits (l : List Char) : Bool := l.all fun c => '0' ≤ c && c ≤ '9'

def digitsVal (l : List Char) : Nat := l.foldl (fun n c => 10 * n + (c.toNat - 48)) 0

/-- `pd.to_numeric(…, errors="coerce")` on one cell: an optionally signed
decimal numeral parses to a rational, anything else coerces to missing. -/
def parseRat (s : String) : Option ℚ :=
  let l := pyStripList s.toList
  let signAndDigits : ℚ × List Char :=
    match l with
    | '-' :: rest => (-1, rest)
    | '+' :: rest => (1, rest)
    | _ => (1, l)
  let sign := signAndDigits.1
  match (signAndDigits.2.splitOn '.') with
  | [intp] =>
    if intp.isEmpty || !allDigits intp then none
    else some (sign * digitsVal intp)
  | [intp, fracp] =>
    if (intp.isEmpty && fracp.isEmpty) || !allDigits intp || !allDigits fracp then none
    else some (sign * ((digitsVal intp : ℚ) + (digitsVal fracp : ℚ) / ((10 : ℚ) ^ fracp.length)))
  | _ => none

/-- `pd.to_datetime(…, errors="coerce")` on one cell, for the ISO dates the
data uses: `YYYY-MM-DD` becomes the number `Y*10000 + M*100 + D` (ordered as
the dates are); anything else coerces to missing. -/
def parseIsoDate (s : String) : Option Nat :=
  match (pyStripList s.toList).splitOn '-' with
  | [y, m, d] =>
    if y.length = 4 && allDigits y && !m.isEmpty && m.length ≤ 2 && allDigits m &&
       !d.isEmpty && d.length ≤ 2 && allDigits d then
      some (digitsVal y * 10000 + digitsVal m * 100 + digitsVal d)
    else none
  | _ => none

/-- One row of the canonical transaction table (the seven canonical
columns). The description is optional: a missing description cell is a NaN
(which `str(…)` downstream renders as "nan", distinct from Python `None`),
reachable when neither a date nor a description column resolves — the frame
keeps an empty index through the scalar column assignments, and the first
length-n Series assignment (the amount column) re-pins the index and fills
the already-present description column with NaN. -/
structure TRow where
  date : Option Nat
  description : Option String
  merchant : String
  amount : ℚ
  category : Option String
  type : Option String
  account : Option String
deriving DecidableEq, Repr

/-- The stoplist of `extract_merchant`. -/
def MERCHANT_STOPLIST : List String :=
  ["purchase", "pos", "debit", "credit", "payment", "card", "visa",
   "mastercard", "amzn", "amazon"]

/-- `re.sub(r"[^a-z0-9\s]", " ", ·)`: every character that is not a
lowercase letter, digit or whitespace becomes a space. -/
def stripNonAlnumToSpace (l : List Char) : List Char :=
  l.map fun c =>
    if ('a' ≤ c && c ≤ 'z') || ('0' ≤ c && c ≤ '9') || pySpace c then c else ' '

/-- The token list `extract_merchant` builds: normalize, strip
non-alphanumerics to spaces, collapse and trim whitespace, split. -/
def merchantTokens (description : String) : List String :=
  pySplitWs (pyStripList (collapseWsList (stripNonAlnumToSpace (normalize_text (some description)).toList)))

/-- `extract_merchant`: first two non-stoplist tokens joined by a space;
the first token if all were stoplisted; empty if there are no tokens. -/
def extract_merchant (description : String) : String :=
  let tokens := merchantTokens description
  let filtered := tokens.filter fun t => !MERCHANT_STOPLIST.contains t
  let merchant :=
    if filtered.isEmpty then (tokens.head?.getD "")
    else " ".intercalate (filtered.take 2)
  pyStrip merchant

/-- `normalize_sign` (the row function inside `normalize_dataframe`): NaN
amounts become 0; a type containing "debit"/"withdraw"/"purchase" forces the
amount negative; "credit"/"deposit"/"income"/"refund" forces it positive;
otherwise the amount stays. -/
def normalize_sign (amt : Option ℚ) (ty : Option String) : ℚ :=
  let t := pyLower (ty.getD "")
  match amt with
  | none => 0
  | some a =>
    if containsAny t ["debit", "withdraw", "purchase"] then -|a|
    else if containsAny t ["credit", "deposit", "income", "refund"] then |a|
    else a

/-- The derived amount column before sign normalization (io.py lines
106-118): the amount column coerced numerically when resolved; else credit
minus debit with the missing side a scalar 0 and missing cells filled with
0. When neither an amount nor a debit nor a credit column resolves,
`amount_series` stays the scalar `0.0`, and line 118's
`pd.to_numeric(0.0, errors="coerce").fillna(0.0)` raises — `to_numeric` on
a scalar returns a scalar, which has no `fillna` — so ingestion fails. -/
def amountColumn (raw : RawDF) (colmap : ColMap) : Except String (List ℚ) :=
  match colmap.amount with
  | some c => .ok ((getCol raw c).map fun cell => ((cell.bind parseRat).getD 0))
  | none =>
    match colmap.debit, colmap.credit with
    | none, none =>
      .error "AttributeError: 'numpy.float64' object has no attribute 'fillna'"
    | od, oc =>
      let debitF := match od with
        | some dc => (getCol raw dc).map fun cell => ((cell.bind parseRat).getD 0)
        | none => raw.rows.map fun _ => (0 : ℚ)
      let creditF := match oc with
        | some cc => (getCol raw cc).map fun cell => ((cell.bind parseRat).getD 0)
        | none => raw.rows.map fun _ => (0 : ℚ)
      .ok (List.zipWith (fun cr db => cr - db) creditF debitF)

/-- The description column: the resolved column as text; else the first
column whose lowered (unstripped) name is a description candidate; else the
scalar `""` — which broadcasts to `""` per row when the date column already
pinned the frame's index, but is an empty column when the index is still
empty, in which case the later amount-Series assignment re-pins the index
and fills description with NaN (`none`) per row. -/
def descriptionColumn (raw : RawDF) (colmap : ColMap) : List (Option String) :=
  match colmap.description with
  | some c => (getCol raw c).map fun cell => some (cellToStr cell)
  | none =>
    match raw.header.filter (fun c => DESC_CANDIDATES.contains (pyLower c)) with
    | c :: _ => (getCol raw c).map fun cell => some (cellToStr cell)
    | [] =>
      if colmap.date.isSome then raw.rows.map fun _ => some ""
      else raw.rows.map fun _ => none

/-- What a pandas NaN description cell turns into wherever the code renders
it with `str(…)` (`normalize_text`, `astype(str)`): the string "nan" — NaN
is not Python `None`, so `normalize_text`'s None-check does not fire. -/
def descStr (d : Option String) : String := d.getD "nan"

/-- `normalize_dataframe` (io.py lines 81-166): resolve columns, build the
seven canonical columns, derive merchant from description and normalize the
amount sign. Two failure paths propagate as exceptions: the scalar-fillna
`AttributeError` of `amountColumn`, and — on a frame with zero rows — the
row-wise `apply(normalize_sign, axis=1)` at line 158, whose empty-frame
result is a DataFrame whose assignment to the single `amount` column
raises. Row counts: a resolved date column pins the index at n rows; with
no date column the first length-n Series assignment (description or
amount) re-pins the empty index to n rows, filling earlier scalar-set
columns with NaN — so every `.ok` result has one row per input row. -/
def normalize_dataframe (raw : RawDF) : Except String (List TRow) :=
  let colmap := canonicalizeColumns raw
  let n := raw.rows.length
  match amountColumn raw colmap with
  | .error e => .error e
  | .ok amtCol =>
    if raw.rows.isEmpty then
      .error "ValueError: Cannot set a DataFrame with multiple columns to the single column amount"
    else
      let dateCol : List (Option Nat) :=
        match colmap.date with
        | some c => (getCol raw c).map fun cell => cell.bind parseIsoDate
        | none => raw.rows.map fun _ => none
      let descCol := descriptionColumn raw colmap
      let typeCol : List (Option String) :=
        match colmap.type with
        | some c => (getCol raw c).map fun cell => some (pyLower (cellToStr cell))
        | none => raw.rows.map fun _ => none
      let accountCol : List (Option String) :=
        match colmap.account with
        | some c => (getCol raw c).map fun cell => some (cellToStr cell)
        | none => raw.rows.map fun _ => none
      let catCol : List (Option String) :=
        match colmap.category with
        | some c => (getCol raw c).map fun cell => some (cellToStr cell)
        | none => raw.rows.map fun _ => none
      .ok ((List.range n).map fun i =>
        let desc := (descCol.get? i).getD none
        { date := (dateCol.get? i).getD none
          description := desc
          merchant := extract_merchant (descStr desc)
          amount := normalize_sign (some (amtCol.getD i 0)) ((typeCol.get? i).getD none)
          category := (catCol.get? i).getD none
          type := (typeCol.get? i).getD none
          account := (accountCol.get? i).getD none })

/-- `load_csv`: `pd.read_csv` may fail (unreadable file, parse error), and
`normalize_dataframe` may raise during the amount derivation — either
failure propagates to the caller. -/
def load_csv (content : Except String RawDF) : Except String (List TRow) :=
  content.bind normalize_dataframe

/-! ## Reporting (`src/expense_tracker/utils/reporting.py`) -/

/-- The negative-amount restriction `df[df["amount"] < 0]`. -/
def negRows (rows : List TRow) : List TRow :=
  rows.filter fun r => decide (r.amount < 0)

/-- The grouping label: `category.fillna("Uncategorized")`. -/
def catLabel (r : TRow) : String := r.category.getD "Uncategorized"

/-- The group sum for a label: the sum of `spend = -amount` over the
negative-amount rows carrying that label. -/
def spendSum (rows : List TRow) (k : String) : ℚ :=
  (((negRows rows).filter fun r => catLabel r == k).map fun r => -r.amount).sum

/-- First-occurrence deduplication (the distinct group keys in the order the
rows present them; the final output order is fixed by the spend sort). -/
def dedupGo (seen : List String) : List String → List String
  | [] => []
  | a :: rest =>
    if seen.contains a then dedupGo seen rest
    else a :: dedupGo (a :: seen) rest

/-- The sort relation of `by_category`'s `sort_values("spend",
ascending=False)`: spend descending. -/
def spendOrder (a b : String × ℚ) : Prop := b.2 ≤ a.2

instance : DecidableRel spendOrder := fun a b => Rat.instDecidableLe b.2 a.2

instance : IsTotal (String × ℚ) spendOrder :=
  ⟨fun a b => le_total b.2 a.2⟩

instance : IsTrans (String × ℚ) spendOrder :=
  ⟨fun _ _ _ h1 h2 => le_trans h2 h1⟩

/-- `by_category`: restrict to negative amounts; empty restriction gives the
empty result; else group `spend = -amount` by the filled category label, sum
per group, and sort by spend descending (Category, Spend pairs). -/
def by_category (rows : List TRow) : List (String × ℚ) :=
  let dfe := negRows rows
  if dfe.isEmpty then []
  else
    let keys := dedupGo [] (dfe.map catLabel)
    let agg := keys.map fun k => (k, spendSum rows k)
    List.insertionSort spendOrder agg

/-! ## Expense Tracker orchestrator (`src/expense_tracker/app.py`)

The fitted scikit-learn pipeline is opaque third-party state; it is embedded
as the data it was fitted on, and prediction is a parameter of the
orchestrator (`predictFn`), so every theorem below holds for every possible
predictor. Streamlit session state becomes an explicit record, and one
render cycle of `main` becomes a state-transition function. -/

/-- A fitted model artifact, identified by the texts and labels
`train_model` received (`train_model(labeled["description"],
labeled["category"])`). -/
structure MLModel where
  texts : List String
  labels : List String
deriving DecidableEq, Repr

/-- `train_model` of `utils/model.py`, shallowly: the returned fitted
pipeline is identified by its training inputs (the classification report it
also returns is dropped by the caller). -/
def train_model (texts labels : List String) : MLModel :=
  { texts := texts, labels := labels }

/-- The per-row body of `apply_rules`: `engine.categorize(t) or None` turns
a falsy result (None or `""`) into None. A NaN description reaches
`categorize` as the float NaN, which `normalize_text` renders `str(…)` as
"nan" (it is not Python `None`), so the engine sees the text "nan". -/
def ruleResult (e : RuleEngine) (r : TRow) : Option String :=
  (categorize e (some (descStr r.description))).bind fun c =>
    if c = "" then none else some c

/-- `apply_rules`: map the engine over the description column. -/
def apply_rules (rows : List TRow) (e : RuleEngine) : List (Option String) :=
  rows.map (ruleResult e)

/-- The rules phase of `apply_hybrid_categorization` (lines 47–48):
`out["category"] = out["category"].where(out["category"].notna(),
rule_cats)` — only rows whose category is missing receive the rule result. -/
def rulesStep (rows : List TRow) (e : RuleEngine) : List TRow :=
  List.zipWith
    (fun r rc => { r with category := if r.category.isSome then r.category else rc })
    rows (apply_rules rows e)

/-- The labeled training set: seed rows and working rows that have both a
category and a description (`dropna(subset=["category", "description"])`
drops rows where either is NaN). -/
def labeledSet (seed out : List TRow) : List TRow :=
  seed.filter (fun r => r.category.isSome && r.description.isSome) ++
    out.filter (fun r => r.category.isSome && r.description.isSome)

/-- `Series.nunique()` of the category column of a labeled set. -/
def nuniqueCats (labeled : List TRow) : Nat :=
  (dedupGo [] (labeled.filterMap TRow.category)).length

/-- The still-uncategorized mask after the rules phase:
`category.isna() | (category.astype(str).str.strip() == "")`. -/
def mask_uncat (r : TRow) : Bool :=
  r.category.isNone || pyStrip (r.category.getD "") == ""

/-- Write the predicted categories into the masked rows, in order
(`out.loc[mask_uncat, "category"] = preds`). -/
def fillPreds : List TRow → List String → List TRow
  | [], _ => []
  | r :: rest, preds =>
    if mask_uncat r then
      match preds with
      | p :: ps => { r with category := some p } :: fillPreds rest ps
      | [] => r :: fillPreds rest []
    else r :: fillPreds rest preds

/-- `apply_hybrid_categorization`: rules first; assemble the labeled set;
with no labels or fewer than 2 distinct categories clear the session model
and return the rules-only table; otherwise retrain, store the new model,
and predict categories for the rows still uncategorized. `predictFn` stands
for `predict_categories`; `diskModel` is the value `load_model()` returns;
the pair returned is (table, session model reference after the run). -/
def apply_hybrid (predictFn : MLModel → List String → List String)
    (df seed : List TRow) (e : RuleEngine)
    (sessionModel diskModel : Option MLModel) : List TRow × Option MLModel :=
  let out := rulesStep df e
  let labeled := labeledSet seed out
  let _model := sessionModel.orElse fun _ => diskModel
  if labeled.isEmpty || nuniqueCats labeled < 2 then (out, none)
  else
    let model := train_model (labeled.filterMap TRow.description)
      (labeled.filterMap TRow.category)
    let preds := predictFn model ((out.filter mask_uncat).map fun r => descStr r.description)
    (fillPreds out preds, some model)

/-- The Expense Tracker's session state: working table, active model
reference, Rule Engine. -/
structure ETState where
  transactions : List TRow
  model : Option MLModel
  rules : RuleEngine

/-- The upload slot of one interaction: nothing uploaded, or the result of
reading the uploaded CSV. -/
inductive Uploaded where
  | noUpload : Uploaded
  | file : Except String RawDF → Uploaded

/-- One render cycle of `main` around the upload path: any exception out of
`load_csv` (a failed read or a failure inside normalization) shows
`st.error` naming it and returns with the session untouched; a loaded
non-empty table runs the hybrid pipeline and replaces the working table and
model; an empty table leaves the session alone and shows the info prompt.
The second component is the error message shown, if any. -/
def mainStep (predictFn : MLModel → List String → List String)
    (seed : List TRow) (diskModel : Option MLModel)
    (s : ETState) (u : Uploaded) : ETState × Option String :=
  match u with
  | .file content =>
    match load_csv content with
    | .error e => (s, some ("Failed to load file: " ++ e))
    | .ok df =>
      if df.isEmpty then (s, none)
      else
        let res := apply_hybrid predictFn df seed s.rules s.model diskModel
        ({ s with transactions := res.1, model := res.2 }, none)
  | .noUpload =>
    let df := s.transactions
    if df.isEmpty then (s, none)
    else
      let res := apply_hybrid predictFn df seed s.rules s.model diskModel
      ({ s with transactions := res.1, model := res.2 }, none)

/-! ## Sales Dashboard date-range filter (`src/app.py`, lines 81–104)

Dates are embedded as integers (pandas timestamps are totally ordered;
only their order matters to the filter). -/

/-- One order row, with the fields the filter mask reads. -/
structure SalesRow where
  order_id : Nat
  date : Int
  product : String
  channel : String
  revenue : ℚ
deriving DecidableEq, Repr

/-- What `st.date_input("Date range", …)` hands back: a (start, end) tuple
or a single date. -/
inductive DateRangeInput where
  | range : Int → Int → DateRangeInput
  | single : Int → DateRangeInput

/-- Lines 83–86: a tuple is used as (start, end) as-is; a single date
becomes start = end = that date. No reordering is applied to a tuple. -/
def resolveDateRange : DateRangeInput → Int × Int
  | .range a b => (a, b)
  | .single d => (d, d)

/-- Lines 99–104: the filter mask — `date.between(start, end)` (inclusive on
both ends) and product and channel membership in the selections. -/
def filterOrders (df : List SalesRow) (startD endD : Int)
    (prodSel chanSel : List String) : List SalesRow :=
  df.filter fun r =>
    (startD ≤ r.date && r.date ≤ endD) && prodSel.contains r.product &&
      chanSel.contains r.channel

/-! ## Helper lemmas about the dictionary, deduplication and zip operations -/

theorem alistLookup_nil {α : Type} (k : String) :
    alistLookup ([] : List (String × α)) k = none := rfl

theorem alistLookup_cons {α : Type} (k0 : String) (v0 : α) (m : List (String × α))
    (k : String) :
    alistLookup ((k0, v0) :: m) k = if k0 == k then some v0 else alistLookup m k := by
  by_cases h : k0 == k <;> simp [alistLookup, List.find?, h]

theorem alistLookup_append {α : Type} (m m' : List (String × α)) (k : String) :
    alistLookup (m ++ m') k = (alistLookup m k).elim (alistLookup m' k) some := by
  induction m with
  | nil => simp [alistLookup_nil, Option.elim]
  | cons hd tl ih =>
    obtain ⟨k0, v0⟩ := hd
    by_cases h : k0 == k <;> simp [alistLookup_cons, h, ih, Option.elim]

theorem alistLookup_alistUpdate_self {α : Type} (m : List (String × α)) (k : String)
    (v : α) : alistLookup (alistUpdate m k v) k = some v := by
  induction m with
  | nil => simp [alistUpdate, alistLookup_cons]
  | cons hd tl ih =>
    obtain ⟨k0, v0⟩ := hd
    by_cases h : k0 == k
    · simp [alistUpdate, h, alistLookup_cons]
    · simp [alistUpdate, h, alistLookup_cons, ih]

theorem alistLookup_alistUpdate_ne {α : Type} (m : List (String × α)) (k : String)
    (v : α) (k' : String) (h : k' ≠ k) :
    alistLookup (alistUpdate m k v) k' = alistLookup m k' := by
  have hne : ¬ (k == k') = true := fun hb => h (eq_of_beq hb).symm
  induction m with
  | nil => simp [alistUpdate, alistLookup_cons, alistLookup_nil, hne]
  | cons hd tl ih =>
    obtain ⟨k0, v0⟩ := hd
    by_cases h0 : k0 == k
    · have hk0 : k0 = k := eq_of_beq h0
      subst hk0
      simp [alistUpdate, h0, alistLookup_cons, hne]
    · simp [alistUpdate, h0, alistLookup_cons, ih]

theorem alistLookup_eq_none {α : Type} (m : List (String × α)) (k : String)
    (h : k ∉ m.map Prod.fst) : alistLookup m k = none := by
  induction m with
  | nil => rfl
  | cons hd tl ih =>
    obtain ⟨k0, v0⟩ := hd
    simp only [List.map_cons, List.mem_cons] at h
    push_neg at h
    have hne : ¬ (k0 == k) = true := fun hb => h.1 (eq_of_beq hb).symm
    simp [alistLookup_cons, hne, ih h.2]

theorem alistLookup_dictUpdate {α : Type} (o : List (String × α))
    (h : (o.map Prod.fst).Nodup) (m : List (String × α)) (k : String) :
    alistLookup (dictUpdate m o) k =
      (alistLookup o k).elim (alistLookup m k) some := by
  induction o generalizing m with
  | nil => simp [dictUpdate, alistLookup_nil]
  | cons hd tl ih =>
    obtain ⟨k0, v0⟩ := hd
    have hk0 : k0 ∉ tl.map Prod.fst := (List.nodup_cons.mp h).1
    have hnd : (tl.map Prod.fst).Nodup := (List.nodup_cons.mp h).2
    show alistLookup (dictUpdate (alistUpdate m k0 v0) tl) k = _
    rw [ih hnd]
    by_cases hk : k0 == k
    · have hk' : k0 = k := eq_of_beq hk
      subst hk'
      rw [alistLookup_eq_none tl k0 hk0]
      simp [alistLookup_cons, alistLookup_alistUpdate_self, Option.elim]
    · have hne : k ≠ k0 := fun he => hk (by simp [he])
      simp only [alistLookup_cons, if_neg hk]
      cases htl : alistLookup tl k <;>
        simp [alistLookup_alistUpdate_ne _ _ _ _ hne, Option.elim]

theorem mem_dedupGo (a : String) :
    ∀ (l seen : List String), a ∈ dedupGo seen l ↔ a ∈ l ∧ a ∉ seen := by
  intro l
  induction l with
  | nil => intro seen; simp [dedupGo]
  | cons b rest ih =>
    intro seen
    by_cases hb : seen.contains b
    · have hbm : b ∈ seen := by simpa using hb
      rw [show dedupGo seen (b :: rest) = dedupGo seen rest from by
        simp only [dedupGo]; rw [if_pos hb]]
      rw [ih seen, List.mem_cons]
      constructor
      · rintro ⟨hm, hs⟩; exact ⟨Or.inr hm, hs⟩
      · rintro ⟨rfl | hm, hs⟩
        · exact absurd hbm hs
        · exact ⟨hm, hs⟩
    · have hbm : b ∉ seen := by simpa using hb
      rw [show dedupGo seen (b :: rest) = b :: dedupGo (b :: seen) rest from by
        simp only [dedupGo]; rw [if_neg hb]]
      rw [List.mem_cons, List.mem_cons, ih (b :: seen)]
      constructor
      · rintro (rfl | ⟨hm, hs⟩)
        · exact ⟨Or.inl rfl, hbm⟩
        · exact ⟨Or.inr hm, fun hn => hs (List.mem_cons.mpr (Or.inr hn))⟩
      · rintro ⟨rfl | hm, hs⟩
        · exact Or.inl rfl
        · by_cases hab : a = b
          · exact Or.inl hab
          · refine Or.inr ⟨hm, fun hn => ?_⟩
            rcases List.mem_cons.mp hn with h1 | h1
            · exact hab h1
            · exact hs h1

theorem zipWith_self_map {α β γ : Type} (f : α → β → γ) (g : α → β) :
    ∀ l : List α, List.zipWith f l (l.map g) = l.map fun a => f a (g a)
  | [] => rfl
  | a :: l => by
    simp [List.zipWith, zipWith_self_map f g l]

theorem rulesStep_eq_map (rows : List TRow) (e : RuleEngine) :
    rulesStep rows e = rows.map fun r =>
      { r with category := if r.category.isSome then r.category else ruleResult e r } := by
  unfold rulesStep apply_rules
  exact zipWith_self_map _ _ rows

/-! ## Claim theorems -/

/-- C4: sign normalization — a lowered type text containing "debit",
"withdraw" or "purchase" forces the amount to the negated absolute value; a
text containing "credit", "deposit", "income" or "refund" (and none of the
former) forces the absolute value; otherwise the derived amount is
unchanged; in particular 50 with "debit" becomes −50 and 50 with "credit"
becomes +50. -/
theorem C4_sign_normalization (a : ℚ) (ty : Option String) :
    (containsAny (pyLower (ty.getD "")) ["debit", "withdraw", "purchase"] = true →
      normalize_sign (some a) ty = -|a|) ∧
    (containsAny (pyLower (ty.getD "")) ["debit", "withdraw", "purchase"] = false →
      containsAny (pyLower (ty.getD "")) ["credit", "deposit", "income", "refund"] = true →
      normalize_sign (some a) ty = |a|) ∧
    (containsAny (pyLower (ty.getD "")) ["debit", "withdraw", "purchase"] = false →
      containsAny (pyLower (ty.getD "")) ["credit", "deposit", "income", "refund"] = false →
      normalize_sign (some a) ty = a) ∧
    normalize_sign (some 50) (some "debit") = -50 ∧
    normalize_sign (some 50) (some "credit") = 50 := by
  refine ⟨?_, ?_, ?_, ?_, ?_⟩
  · intro h; simp [normalize_sign, h]
  · intro h1 h2; simp [normalize_sign, h1, h2]
  · intro h1 h2; simp [normalize_sign, h1, h2]
  · decide
  · decide

/-- C9: when an upload fails during ingestion, the render cycle shows a
visible error naming the failure and leaves the session state — working
table, model reference and Rule Engine — exactly as it was. Both failure
modes are covered: an unreadable file (the read error propagates through
`load_csv`) and a CSV whose columns resolve no amount source, where the
amount derivation raises (the concrete ["foo"] upload). -/
theorem C9_ingestion_failure_preserves_state
    (pf : MLModel → List String → List String) (seed : List TRow)
    (dm : Option MLModel) (s : ETState) (u : Except String RawDF) (msg : String)
    (h : load_csv u = .error msg) :
    mainStep pf seed dm s (.file u) = (s, some ("Failed to load file: " ++ msg)) ∧
    load_csv (.ok ⟨["foo"], [[some "bar"]]⟩) =
      .error "AttributeError: 'numpy.float64' object has no attribute 'fillna'" ∧
    (∀ m : String, load_csv (.error m) = (.error m : Except String (List TRow))) := by
  refine ⟨?_, rfl, fun m => rfl⟩
  simp only [mainStep, h]

/-- C9 (witness): the theorem applied to the upload of a CSV with the
single unrecognized column "foo" — a missing-required-columns ingestion
failure at a concrete input. -/
theorem C9_ingestion_failure_preserves_state_witness :
    mainStep (fun _ ts => ts) [] none
        ⟨[], none, mkEngine .absent⟩ (.file (.ok ⟨["foo"], [[some "bar"]]⟩)) =
      (⟨[], none, mkEngine .absent⟩,
       some ("Failed to load file: " ++
         "AttributeError: 'numpy.float64' object has no attribute 'fillna'")) ∧
    load_csv (.ok ⟨["foo"], [[some "bar"]]⟩) =
      .error "AttributeError: 'numpy.float64' object has no attribute 'fillna'" ∧
    (∀ m : String, load_csv (.error m) = (.error m : Except String (List TRow))) :=
  C9_ingestion_failure_preserves_state (fun _ ts => ts) [] none
    ⟨[], none, mkEngine .absent⟩ (.ok ⟨["foo"], [[some "bar"]]⟩)
    "AttributeError: 'numpy.float64' object has no attribute 'fillna'" rfl

/-- C10: the model artifact loaded from disk is never used for prediction —
the whole hybrid run is independent of what `load_model` returns; when the
labeled set is empty or has fewer than 2 distinct categories, the session
model is cleared and the rules-only table is returned; otherwise the result
is built exclusively from the model retrained in the same run. -/
theorem C10_disk_model_unused (pf : MLModel → List String → List String)
    (df seed : List TRow) (e : RuleEngine) (sm d1 d2 : Option MLModel) :
    apply_hybrid pf df seed e sm d1 = apply_hybrid pf df seed e sm d2 ∧
    (labeledSet seed (rulesStep df e) = [] ∨
        nuniqueCats (labeledSet seed (rulesStep df e)) < 2 →
      apply_hybrid pf df seed e sm d1 = (rulesStep df e, none)) ∧
    (¬(labeledSet seed (rulesStep df e) = [] ∨
        nuniqueCats (labeledSet seed (rulesStep df e)) < 2) →
      apply_hybrid pf df seed e sm d1 =
        (fillPreds (rulesStep df e)
          (pf (train_model ((labeledSet seed (rulesStep df e)).filterMap TRow.description)
                ((labeledSet seed (rulesStep df e)).filterMap TRow.category))
            (((rulesStep df e).filter mask_uncat).map fun r => descStr r.description)),
         some (train_model ((labeledSet seed (rulesStep df e)).filterMap TRow.description)
           ((labeledSet seed (rulesStep df e)).filterMap TRow.category)))) := by
  refine ⟨rfl, ?_, ?_⟩
  · intro h
    have hc : ((labeledSet seed (rulesStep df e)).isEmpty ||
        decide (nuniqueCats (labeledSet seed (rulesStep df e)) < 2)) = true := by
      rcases h with h | h <;> simp [h]
    simp only [apply_hybrid, hc, if_true]
  · intro h
    push_neg at h
    have hc : ((labeledSet seed (rulesStep df e)).isEmpty ||
        decide (nuniqueCats (labeledSet seed (rulesStep df e)) < 2)) = false := by
      simp [h.1, h.2]
    simp only [apply_hybrid, hc]
    rfl

/-- C1 (amended): the rules phase computes the rule result for every row
but fills only rows whose category is missing (None); a row with a present
category — the empty string included — passes through unchanged, so
empty-string categories are left for the ML phase. -/
theorem C1_rules_fill_only_missing (df : List TRow) (e : RuleEngine) (i : Nat)
    (r : TRow) (h : df[i]? = some r) :
    (rulesStep df e)[i]? =
      some { r with category := if r.category.isSome then r.category
                                else ruleResult e r } := by
  rw [rulesStep_eq_map]
  simp [h]

/-- C1 (witness): the theorem applied to a one-row table whose category is
missing. -/
theorem C1_rules_fill_only_missing_witness :
    (rulesStep [{ date := none, description := some "UBER TRIP 9Q8W2", merchant := "uber trip",
                  amount := -3, category := none, type := none, account := none }]
        (mkEngine .absent))[0]? =
      some { date := none, description := some "UBER TRIP 9Q8W2", merchant := "uber trip",
             amount := -3,
             category := if (none : Option String).isSome then (none : Option String)
                         else ruleResult (mkEngine .absent)
                           { date := none, description := some "UBER TRIP 9Q8W2",
                             merchant := "uber trip", amount := -3, category := none,
                             type := none, account := none },
             type := none, account := none } :=
  C1_rules_fill_only_missing _ _ 0 _ rfl

/-- C1 (counterexample): a row with the empty string as its category is not
filled by the rules phase even though rule categorization of its
description succeeds — the claim's "absent or an empty string" fails for
the empty string. -/
theorem C1_counterexample :
    rulesStep [{ date := none, description := some "STARBUCKS", merchant := "starbucks",
                 amount := -5, category := some "", type := none, account := none }]
        (mkEngine .absent) =
      [{ date := none, description := some "STARBUCKS", merchant := "starbucks",
         amount := -5, category := some "", type := none, account := none }] ∧
    apply_rules [{ date := none, description := some "STARBUCKS", merchant := "starbucks",
                   amount := -5, category := some "", type := none, account := none }]
        (mkEngine .absent) = [some "Restaurants"] :=
  ⟨rfl, rfl⟩

/-- C3 (amended): a single selected date is treated as start = end = that
date; a selected tuple is used as-is — no swap is applied when start > end,
and then the filter (inclusive between on the date plus the product and
channel selections) returns the empty set; when start ≤ end membership in
the filtered set is exactly date within [start, end] inclusive with product
and channel selected. -/
theorem C3_date_filter (d a b : Int) (df : List SalesRow) (ps cs : List String)
    (o : SalesRow) :
    resolveDateRange (.single d) = (d, d) ∧
    resolveDateRange (.range a b) = (a, b) ∧
    (o ∈ filterOrders df a b ps cs ↔
      o ∈ df ∧ (a ≤ o.date ∧ o.date ≤ b) ∧ o.product ∈ ps ∧ o.channel ∈ cs) ∧
    (b < a → filterOrders df a b ps cs = []) := by
  refine ⟨rfl, rfl, ?_, ?_⟩
  · simp [filterOrders, List.mem_filter, and_assoc]
  · intro hba
    refine List.eq_nil_iff_forall_not_mem.mpr fun x hx => ?_
    have hx' := (List.mem_filter.mp hx).2
    simp only [Bool.and_eq_true, decide_eq_true_eq] at hx'
    exact absurd (le_trans hx'.1.1.1 hx'.1.1.2) (not_le.mpr hba)

/-- C3 (counterexample): with the reversed range (5, 3) no swap happens —
`resolveDateRange` keeps (5, 3) and the filter returns the empty set,
although the row dated 4 lies between 3 and 5 and is returned once the
bounds are given in order. -/
theorem C3_counterexample :
    resolveDateRange (.range 5 3) = (5, 3) ∧
    filterOrders [{ order_id := 1, date := 4, product := "Basic", channel := "Online",
                    revenue := 19 }] 5 3 ["Basic"] ["Online"] = [] ∧
    filterOrders [{ order_id := 1, date := 4, product := "Basic", channel := "Online",
                    revenue := 19 }] 3 5 ["Basic"] ["Online"] =
      [{ order_id := 1, date := 4, product := "Basic", channel := "Online",
         revenue := 19 }] := by
  refine ⟨rfl, ?_, ?_⟩ <;> decide

/-- C2 (amended): loading rules starts from the built-in defaults and
applies the overlay dict with `dict.update` semantics — a category present
in the overlay has its whole pattern list REPLACED by the overlay's list
(defaults of that category are dropped), a category absent from the overlay
keeps its default list, and an absent, malformed or non-dict overlay file
leaves exactly the defaults. -/
theorem C2_load_rules (entries : List (String × List String)) (cat : String)
    (h : (entries.map Prod.fst).Nodup) :
    load_rules .absent = DEFAULT_RULES ∧
    load_rules .malformed = DEFAULT_RULES ∧
    load_rules .nonDict = DEFAULT_RULES ∧
    alistLookup (load_rules (.dict entries)) cat =
      (alistLookup entries cat).elim (alistLookup DEFAULT_RULES cat) some := by
  refine ⟨rfl, rfl, rfl, ?_⟩
  simp only [load_rules]
  exact alistLookup_dictUpdate entries h DEFAULT_RULES cat

/-- C2 (witness): the theorem at the overlay {"Pets": ["petco"]}. -/
theorem C2_load_rules_witness :
    load_rules .absent = DEFAULT_RULES ∧
    load_rules .malformed = DEFAULT_RULES ∧
    load_rules .nonDict = DEFAULT_RULES ∧
    alistLookup (load_rules (.dict [("Pets", ["petco"])])) "Pets" =
      (alistLookup [("Pets", ["petco"])] "Pets").elim
        (alistLookup DEFAULT_RULES "Pets") some :=
  C2_load_rules [("Pets", ["petco"])] "Pets" (by decide)

/-- C2 (counterexample): with overlay {"Groceries": ["petco"]}, the loaded
rule set for Groceries is exactly ["petco"] — the default Groceries
patterns (e.g. the safeway pattern) are gone, refuting "overlay entries are
additive" and "the loaded rule set still contains every default pattern of
that category". -/
theorem C2_counterexample :
    alistLookup (load_rules (.dict [("Groceries", ["petco"])])) "Groceries" =
      some ["petco"] ∧
    "\\bsafeway\\b" ∈ (alistLookup DEFAULT_RULES "Groceries").getD [] ∧
    "\\bsafeway\\b" ∉ (alistLookup (load_rules (.dict [("Groceries", ["petco"])]))
      "Groceries").getD [] := by
  refine ⟨by decide, by decide, by decide⟩

/-- C5: `categorize` first normalizes the description and returns no match
on empty text; otherwise it returns the category of the first compiled rule
(in `compiled_rules` order) whose regex matches anywhere in the text, no
match if none does — and for every engine built by `load_rules` +
`_compile`, `compiled_rules` is sorted by the literal length of the
pattern's source text, longest first. -/
theorem C5_categorize (f : OverlayFile) (d : Option String) :
    List.Sorted ruleOrder (mkEngine f).compiled_rules ∧
    (normalize_text d = "" → categorize (mkEngine f) d = none) ∧
    (normalize_text d ≠ "" →
      categorize (mkEngine f) d =
        ((mkEngine f).compiled_rules.find? fun c =>
          rxSearch c.rx (normalize_text d)).map CompiledRule.category) := by
  refine ⟨?_, ?_, ?_⟩
  · exact List.sorted_insertionSort ruleOrder _
  · intro h; simp [categorize, h]
  · intro h; simp [categorize, h]

/-- C6: merchant extraction — normalize, map non-alphanumerics to spaces,
collapse whitespace, split; drop stoplist tokens and keep the first two
joined by a space; fall back to the first raw token when everything was
stoplisted; the empty string when there are no tokens; in particular
"POS PURCHASE STARBUCKS 4521" yields "starbucks 4521". -/
theorem C6_extract_merchant (d : String) :
    (∀ t ts, (merchantTokens d).filter (fun t => !MERCHANT_STOPLIST.contains t) = t :: ts →
      extract_merchant d = pyStrip (" ".intercalate ((t :: ts).take 2))) ∧
    ((merchantTokens d).filter (fun t => !MERCHANT_STOPLIST.contains t) = [] →
      ∀ t0 ts0, merchantTokens d = t0 :: ts0 → extract_merchant d = pyStrip t0) ∧
    (merchantTokens d = [] → extract_merchant d = "") ∧
    extract_merchant "POS PURCHASE STARBUCKS 4521" = "starbucks 4521" := by
  refine ⟨?_, ?_, ?_, ?_⟩
  · intro t ts hf
    show pyStrip
        (if ((merchantTokens d).filter fun t => !MERCHANT_STOPLIST.contains t).isEmpty
         then ((merchantTokens d).head?.getD "")
         else " ".intercalate
           (((merchantTokens d).filter fun t => !MERCHANT_STOPLIST.contains t).take 2)) =
      pyStrip (" ".intercalate ((t :: ts).take 2))
    rw [hf]
    rfl
  · intro hf t0 ts0 ht
    show pyStrip
        (if ((merchantTokens d).filter fun t => !MERCHANT_STOPLIST.contains t).isEmpty
         then ((merchantTokens d).head?.getD "")
         else " ".intercalate
           (((merchantTokens d).filter fun t => !MERCHANT_STOPLIST.contains t).take 2)) =
      pyStrip t0
    rw [hf, ht]
    rfl
  · intro ht
    show pyStrip
        (if ((merchantTokens d).filter fun t => !MERCHANT_STOPLIST.contains t).isEmpty
         then ((merchantTokens d).head?.getD "")
         else " ".intercalate
           (((merchantTokens d).filter fun t => !MERCHANT_STOPLIST.contains t).take 2)) =
      ""
    rw [ht]
    rfl
  · rfl

/-- C7: `by_category` — no negative-amount rows give the empty result; the
result is sorted by spend descending; every output pair carries the sum of
−amount over the negative rows with its label and its label comes from a
negative row (missing categories grouped under "Uncategorized"); every
negative row's label appears in the output; a worked example with a
missing-category row. -/
theorem C7_by_category (rows : List TRow) :
    (negRows rows = [] → by_category rows = []) ∧
    List.Sorted spendOrder (by_category rows) ∧
    (∀ q ∈ by_category rows, q.2 = spendSum rows q.1 ∧
      q.1 ∈ (negRows rows).map catLabel) ∧
    (∀ r ∈ rows, r.amount < 0 → catLabel r ∈ (by_category rows).map Prod.fst) ∧
    by_category
      [{ date := none, description := some "a", merchant := "a", amount := -40,
         category := none, type := none, account := none },
       { date := none, description := some "b", merchant := "b", amount := -60,
         category := some "Food", type := none, account := none },
       { date := none, description := some "c", merchant := "c", amount := 10,
         category := some "X", type := none, account := none }] =
      [("Food", 60), ("Uncategorized", 40)] := by
  refine ⟨?_, ?_, ?_, ?_, ?_⟩
  · intro h
    simp [by_category, h]
  · by_cases hE : (negRows rows).isEmpty
    · simp only [by_category, hE, if_true]
      exact List.sorted_nil
    · simp only [by_category, hE, Bool.false_eq_true, if_false]
      exact List.sorted_insertionSort spendOrder _
  · intro q hq
    by_cases hE : (negRows rows).isEmpty
    · simp only [by_category, hE, if_true] at hq
      exact absurd hq (List.not_mem_nil q)
    · simp only [by_category, hE, Bool.false_eq_true, if_false,
        List.mem_insertionSort] at hq
      obtain ⟨k, hk, rfl⟩ := List.mem_map.mp hq
      exact ⟨rfl, ((mem_dedupGo k _ []).mp hk).1⟩
  · intro r hr hneg
    have hrneg : r ∈ negRows rows :=
      List.mem_filter.mpr ⟨hr, by simp [hneg]⟩
    have hE : ¬ (negRows rows).isEmpty = true := by
      cases hnil : negRows rows with
      | nil => rw [hnil] at hrneg; exact absurd hrneg (List.not_mem_nil r)
      | cons a l => simp [hnil]
    simp only [by_category, hE, Bool.false_eq_true, if_false]
    have hlab : catLabel r ∈ (negRows rows).map catLabel :=
      List.mem_map_of_mem catLabel hrneg
    have hded : catLabel r ∈ dedupGo [] ((negRows rows).map catLabel) :=
      (mem_dedupGo _ _ []).mpr ⟨hlab, by simp⟩
    have hagg : (catLabel r, spendSum rows (catLabel r)) ∈
        (dedupGo [] ((negRows rows).map catLabel)).map fun k => (k, spendSum rows k) :=
      List.mem_map_of_mem _ hded
    exact List.mem_map.mpr
      ⟨(catLabel r, spendSum rows (catLabel r)),
       (List.mem_insertionSort spendOrder).mpr hagg, rfl⟩
  · norm_num +decide [by_category, negRows, catLabel, spendSum, dedupGo,
      List.insertionSort, List.orderedInsert, spendOrder, List.filter_cons,
      Option.getD, List.sum_cons, List.sum_nil]

/-- C8: rule persistence round-trip — after `add_rule("Pets", "petco")` on
an engine with no overlay file, a freshly constructed engine loading the
overlay that `save_rules` wrote categorizes "PETCO STORE #5" as Pets; and
`add_rule` ignores a call whose trimmed category or pattern is empty,
leaves the rule table unchanged on a duplicate (category, pattern) pair,
and otherwise appends the trimmed pattern to the category's list. -/
theorem C8_rule_roundtrip (e : RuleEngine) (c p : String) :
    categorize
        (mkEngine (.dict (save_rules (add_rule (mkEngine .absent) "Pets" "petco").rules)))
        (some "PETCO STORE #5") = some "Pets" ∧
    (pyStrip c = "" ∨ pyStrip p = "" → add_rule e c p = e) ∧
    (pyStrip p ∈ (alistLookup e.rules (pyStrip c)).getD [] →
      (add_rule e c p).rules = e.rules) ∧
    (pyStrip c ≠ "" → pyStrip p ≠ "" →
      pyStrip p ∉ (alistLookup e.rules (pyStrip c)).getD [] →
      alistLookup (add_rule e c p).rules (pyStrip c) =
        some ((alistLookup e.rules (pyStrip c)).getD [] ++ [pyStrip p])) := by
  refine ⟨by rfl, ?_, ?_, ?_⟩
  · rintro (h | h) <;> simp [add_rule, h]
  · intro hdup
    by_cases hc0 : pyStrip c = ""
    · simp [add_rule, hc0]
    · by_cases hp0 : pyStrip p = ""
      · simp [add_rule, hc0, hp0]
      · have hsome : (alistLookup e.rules (pyStrip c)).isSome = true := by
          cases hl : alistLookup e.rules (pyStrip c) with
          | none => rw [hl] at hdup; simp at hdup
          | some v => rfl
        simp [add_rule, hc0, hp0, hsome, hdup]
  · intro hc0 hp0 hnd
    by_cases hsome : (alistLookup e.rules (pyStrip c)).isSome
    · simp [add_rule, hc0, hp0, hsome]
      rw [if_neg hnd]
      exact alistLookup_alistUpdate_self _ _ _
    · have hnone : alistLookup e.rules (pyStrip c) = none := by
        cases hl : alistLookup e.rules (pyStrip c) with
        | none => rfl
        | some v => rw [hl] at hsome; simp at hsome
      have happ : alistLookup (e.rules ++ [(pyStrip c, ([] : List String))]) (pyStrip c) =
          some [] := by
        rw [alistLookup_append, hnone]
        simp [alistLookup_cons, Option.elim]
      simp [add_rule, hc0, hp0, hsome, hnone, happ, alistLookup_alistUpdate_self]
